import Mathlib

/-!
Verification of the post-OCR processing and job-orchestration pipeline of the
PDF-CONVERT repository, as a shallow embedding in Lean 4.

The embedded modules are:
  * `src/pdf_convert/postprocessing.py` (SpellChecker, apply_internal_dictionary,
    OCRPostProcessor, PostProcessingResult),
  * `src/pdf_convert/llm_postprocessing.py` (LLMPostProcessor: prompt, cache,
    provider fallback loop),
  * `src/backend/pipeline.py` (OCRPipeline: artifact decoding, the per-page loop
    of `run`, average confidence),
  * `src/backend/tasks.py` (the worker task `process_pdf` and its job state
    transitions).

Conventions: Python floats are modelled as rationals (`ℚ`), bytes as
`List Nat` with every element `< 256`, fallible Python code as `Except PyExc`,
`None`-able values as `Option`.  Dynamic attribute access on a
`@dataclass(slots=True)` instance is modelled by an explicit attribute-lookup
function over the dataclass's declared fields, so that access to an undeclared
attribute is an `AttributeError`, exactly as CPython behaves on slots classes.
-/

namespace PdfConvert

/-- Python exception values that the embedded code can raise or catch. -/
inductive PyExc where
  | runtimeError (msg : String)
  | importError (msg : String)
  | attributeError (msg : String)
  | valueError (msg : String)
  | binasciiError (msg : String)
  deriving Repr, DecidableEq

/-- A Python value as it appears in the dynamically typed layout-metadata
dictionaries (`LayoutMetadata = Dict[str, Any]` in `llm_postprocessing.py`). -/
inductive PyVal where
  | none
  | bool (b : Bool)
  | int (n : Int)
  | str (s : String)
  | list (xs : List PyVal)
  | dict (entries : List (String × PyVal))

/-- Python truthiness (`bool(v)`) for the modelled values. -/
def PyVal.truthy : PyVal → Bool
  | .none => false
  | .bool b => b
  | .int n => n != 0
  | .str s => s != ""
  | .list xs => !xs.isEmpty
  | .dict es => !es.isEmpty

/-- `d.get(key)` on a Python dict modelled as an association list. -/
def dictGet (entries : List (String × PyVal)) (key : String) : Option PyVal :=
  (entries.find? (fun kv => kv.1 == key)).map (·.2)

/-- Truthiness of `d.get(key)` where a missing key (`None`) is falsy. -/
def dictGetTruthy (entries : List (String × PyVal)) (key : String) : Bool :=
  match dictGet entries key with
  | Option.none => false
  | Option.some v => v.truthy

/-- `OCRResult` from `src/pdf_convert/ocr.py` (the fields used by the
post-processing pipeline; `raw_output` is a collaborator-level extra that the
embedded code never reads). -/
structure OCRResult where
  text : String
  confidence : Option ℚ := Option.none
  boxes : Option (List (List Int)) := Option.none
  deriving Repr, DecidableEq

/-- One table descriptor check from `OCRPostProcessor._should_run_llm`:
`isinstance(table, dict) and (table.get("missing_cells") or table.get("gaps")
or table.get("needs_completion"))`. -/
def tableFlagged : PyVal → Bool
  | .dict es =>
      dictGetTruthy es "missing_cells" || dictGetTruthy es "gaps" ||
        dictGetTruthy es "needs_completion"
  | _ => false

/-- `OCRPostProcessor._should_run_llm` from `src/pdf_convert/postprocessing.py`.
`hasLLMProcessor` models `self.llm_processor` being non-`None` (enrichment
enabled and a processor constructed); `layout` is the `layout_metadata`
argument (`None` or a Python value). -/
def shouldRunLLM (hasLLMProcessor : Bool) (threshold : ℚ)
    (confidence : Option ℚ) (layout : Option PyVal) : Bool :=
  if !hasLLMProcessor then false
  else
    match confidence with
    | Option.none => true
    | Option.some c =>
        if c < threshold then true
        else
          -- `if layout_metadata:` — None and empty containers are falsy
          match layout with
          | Option.none => false
          | Option.some md =>
              if md.truthy then
                -- `layout_metadata.get("tables") if isinstance(layout_metadata, dict) else None`
                match md with
                | .dict es =>
                    match dictGet es "tables" with
                    | Option.some (.list tables) => tables.any tableFlagged
                    | _ => false
                | _ => false
              else false

/-- Modelled from the spec: the §4.3 decision heuristic, stated in the spec's
own terms — enrichment runs exactly when the confidence is unknown, below the
threshold, or some table descriptor is flagged as incomplete.  Used only to
compare with `shouldRunLLM`, which is translated from the source. -/
def shouldEnrichSpec (enabled : Bool) (threshold : ℚ)
    (confidence : Option ℚ) (layout : Option PyVal) : Bool :=
  enabled &&
    (confidence.isNone ||
      (match confidence with
       | Option.some c => decide (c < threshold)
       | Option.none => false) ||
      (match layout with
       | Option.some (.dict es) =>
           match dictGet es "tables" with
           | Option.some (.list tables) => tables.any tableFlagged
           | _ => false
       | _ => false))


/-! ## LLM enrichment engine (`src/pdf_convert/llm_postprocessing.py`) -/

/-- Python `s or default` on strings: an empty string is falsy. -/
def pyOrStr (s : String) (dflt : String) : String :=
  if s == "" then dflt else s

/-- Python `opt or default` on `str | None`: `None` and `""` are falsy. -/
def pyOrOptStr (s : Option String) (dflt : String) : String :=
  match s with
  | Option.none => dflt
  | Option.some v => pyOrStr v dflt

/-- `not text.strip()`: true iff the string is empty or all-whitespace. -/
def isBlank (s : String) : Bool :=
  s.data.all Char.isWhitespace

/-- UTF-8 encoding of one scalar value (Python `str.encode("utf-8")`,
byte by byte as natural numbers). -/
def utf8Char (c : Char) : List Nat :=
  let n := c.toNat
  if n < 128 then [n]
  else if n < 2048 then [192 + n / 64, 128 + n % 64]
  else if n < 65536 then [224 + n / 4096, 128 + (n / 64) % 64, 128 + n % 64]
  else [240 + n / 262144, 128 + (n / 4096) % 64, 128 + (n / 64) % 64, 128 + n % 64]

/-- `s.encode("utf-8")` as a list of byte values. -/
def utf8Bytes (s : String) : List Nat :=
  s.data.flatMap utf8Char

/-- Lower-case hex digit for a value `< 16`. -/
def hexDigit (n : Nat) : Char :=
  if n < 10 then Char.ofNat (48 + n) else Char.ofNat (87 + n)

/-- Two-digit lower-case hex rendering of a byte. -/
def hexByte (n : Nat) : String :=
  String.mk [hexDigit (n / 16 % 16), hexDigit (n % 16)]

/-- Escaping of one character as `json.dumps(..., ensure_ascii=False)` does:
quote, backslash and control characters are escaped, everything else is kept. -/
def jsonEscapeChar (c : Char) : String :=
  if c = '"' then "\\\""
  else if c = '\\' then "\\\\"
  else if c = '\n' then "\\n"
  else if c = '\t' then "\\t"
  else if c = '\r' then "\\r"
  else if c.toNat = 8 then "\\b"
  else if c.toNat = 12 then "\\f"
  else if c.toNat < 32 then "\\u00" ++ hexByte c.toNat
  else String.singleton c

/-- JSON string-literal body for `s`. -/
def jsonEscape (s : String) : String :=
  String.join (s.data.map jsonEscapeChar)

/-- Insertion step for sorting dict entries by key (`sort_keys=True`). -/
def insertByKey (kv : String × PyVal) : List (String × PyVal) → List (String × PyVal)
  | [] => [kv]
  | hd :: tl => if kv.1 < hd.1 then kv :: hd :: tl else hd :: insertByKey kv tl

/-- Dict entries sorted by key, as `json.dumps(..., sort_keys=True)` orders them. -/
def sortByKey (es : List (String × PyVal)) : List (String × PyVal) :=
  es.foldr insertByKey []

mutual

/-- Nesting depth of a `PyVal` (used as a fuel bound for serialization). -/
def pyDepth : PyVal → Nat
  | .none => 1
  | .bool _ => 1
  | .int _ => 1
  | .str _ => 1
  | .list xs => 1 + pyDepthList xs
  | .dict es => 1 + pyDepthEntries es

/-- Maximal depth over a list of values. -/
def pyDepthList : List PyVal → Nat
  | [] => 0
  | v :: vs => max (pyDepth v) (pyDepthList vs)

/-- Maximal depth over dict entries. -/
def pyDepthEntries : List (String × PyVal) → Nat
  | [] => 0
  | kv :: rest => max (pyDepth kv.2) (pyDepthEntries rest)

end

/-- `json.dumps(v, ensure_ascii=False, sort_keys=True)`.  The `fuel` argument
is only a structural bound on the recursion depth (any value at least the
nesting depth of `v` gives the same output); `jsonDumps` supplies `pyDepth v`,
which always suffices since every nesting level contributes one to the
depth. -/
def jsonDumpsFuel : Nat → PyVal → String
  | 0, _ => ""
  | _ + 1, .none => "null"
  | _ + 1, .bool b => if b then "true" else "false"
  | _ + 1, .int n => toString n
  | _ + 1, .str s => "\"" ++ jsonEscape s ++ "\""
  | fuel + 1, .list xs =>
      "[" ++ String.intercalate ", " (xs.map (jsonDumpsFuel fuel)) ++ "]"
  | fuel + 1, .dict es =>
      "\x7b" ++
        String.intercalate ", "
          ((sortByKey es).map
            (fun kv => "\"" ++ jsonEscape kv.1 ++ "\": " ++ jsonDumpsFuel fuel kv.2)) ++
        "\x7d"

/-- `json.dumps(layout_metadata or {}, ensure_ascii=False, sort_keys=True)`. -/
def jsonDumps (v : PyVal) : String :=
  jsonDumpsFuel (pyDepth v) v

/-- `LLMRequest` from `llm_postprocessing.py`. -/
structure LLMRequest where
  prompt : String
  model : Option String := Option.none
  metadata : PyVal := .dict []

/-- `LLMResponse` from `llm_postprocessing.py`. -/
structure LLMResponse where
  text : String
  raw : Option PyVal := Option.none
  provider : Option String := Option.none

/-- A provider adapter (`LLMProvider` protocol): a name plus a `generate`
behaviour.  `generate` may raise (`Except.error`); it is modelled as a
deterministic function of the request, which is what the claims about
identical repeated requests need. -/
structure Provider where
  name : String
  generate : LLMRequest → Except PyExc LLMResponse

/-- `LLMPostProcessor._prompt_from_context`: the deterministic prompt built
from the page text and the canonical serialization of the layout metadata.
`layout.getD (.dict [])` models `layout_metadata or {}` (`None` → `{}`;
a falsy empty dict serializes identically to `{}`). -/
def promptFromContext (text : String) (layout : Option PyVal) : String :=
  let metadataStr := jsonDumps (layout.getD (.dict []))
  "Bạn là một trợ lý giúp chuẩn hóa kết quả OCR. " ++
    "Hãy cải thiện chính tả và điền vào các chỗ còn thiếu nếu có thể.\n" ++
    "Nội dung OCR:\n" ++ text ++ "\n" ++
    "Metadata bố cục:\n" ++ metadataStr ++ "\n"

/-- `LLMPostProcessor._cache_key`.  `sha256hex` abstracts
`hashlib.sha256(...).hexdigest()`: no claim depends on the digest's value, so
it is a parameter of the development (threaded through `PyEnv` below). -/
def cache_key (sha256hex : List Nat → String)
    (page_hash : Option String) (model : Option String) : String :=
  let key_material := page_hash.getD ""
  let bytes := utf8Bytes key_material
  let digest := sha256hex (if bytes.isEmpty then utf8Bytes "no-hash" else bytes)
  digest ++ ":" ++ pyOrOptStr model "default"

/-- Assoc-list lookup for the run-scoped response cache (`self._cache`). -/
def cacheLookup (cache : List (String × LLMResponse)) (key : String) :
    Option LLMResponse :=
  (cache.find? (fun kv => kv.1 == key)).map (·.2)

/-- Assoc-list store with Python dict overwrite semantics
(`self._cache[cache_key] = response`). -/
def cacheStore (cache : List (String × LLMResponse)) (key : String)
    (resp : LLMResponse) : List (String × LLMResponse) :=
  match cache with
  | [] => [(key, resp)]
  | kv :: rest =>
      if kv.1 == key then (key, resp) :: rest else kv :: cacheStore rest key resp

/-- The provider fallback loop inside `LLMPostProcessor.enrich` (the `for
provider in self.providers` loop).  Returns the outcome, the updated cache and
the ordered list of provider names whose `generate` was invoked.  `lastError`
carries `last_error`; an empty (all-whitespace) response is a soft failure
that does not touch `last_error`. -/
def enrichLoop (cacheEnabled : Bool) (key : String) (request : LLMRequest) :
    List Provider → Option PyExc → List (String × LLMResponse) →
    Except PyExc (Option LLMResponse) × List (String × LLMResponse) × List String
  | [], lastError, cache =>
      (match lastError with
       | Option.some e => Except.error e
       | Option.none => Except.ok Option.none, cache, [])
  | p :: rest, lastError, cache =>
      match p.generate request with
      | Except.error e =>
          let r := enrichLoop cacheEnabled key request rest (Option.some e) cache
          (r.1, r.2.1, p.name :: r.2.2)
      | Except.ok resp =>
          if isBlank resp.text then
            let r := enrichLoop cacheEnabled key request rest lastError cache
            (r.1, r.2.1, p.name :: r.2.2)
          else
            (Except.ok (Option.some resp),
             if cacheEnabled then cacheStore cache key resp else cache,
             [p.name])

/-- The request `enrich` builds for given arguments (named here so theorem
statements can refer to it). -/
def enrichRequest (text : String) (layout : Option PyVal)
    (model : Option String) : LLMRequest :=
  { prompt := promptFromContext text layout, model := model,
    metadata := layout.getD (.dict []) }

/-- `LLMPostProcessor.enrich`: prompt construction, cache check and provider
fallback.  The engine instance's state is its run-scoped cache, passed in and
returned; the third component is the ordered provider-invocation log.  Note
`self._cache_key(page_hash or prompt, model)` uses the prompt as key material
when `page_hash` is `None` or empty. -/
def enrich (sha256hex : List Nat → String) (providers : List Provider)
    (cacheEnabled : Bool) (cache : List (String × LLMResponse))
    (text : String) (layout : Option PyVal)
    (model : Option String) (page_hash : Option String) :
    Except PyExc (Option LLMResponse) × List (String × LLMResponse) × List String :=
  let prompt := promptFromContext text layout
  let key := cache_key sha256hex (Option.some (pyOrOptStr page_hash prompt)) model
  match cacheEnabled, cacheLookup cache key with
  | true, Option.some cached => (Except.ok (Option.some cached), cache, [])
  | _, _ =>
      enrichLoop cacheEnabled key (enrichRequest text layout model)
        providers Option.none cache

/-- Whether an `Except` models a raised Python exception. -/
def didRaise {α : Type} : Except PyExc α → Bool
  | Except.error _ => true
  | Except.ok _ => false

/-- A provider "fails" for a request when `generate` raises or returns
empty/whitespace-only text (the soft-failure case of the fallback loop). -/
def Provider.failsOn (p : Provider) (req : LLMRequest) : Bool :=
  match p.generate req with
  | Except.error _ => true
  | Except.ok r => isBlank r.text

/-- The `last_error` update of one loop iteration: a raise replaces the
captured exception, a returned (possibly empty) response leaves it. -/
def updLastError (req : LLMRequest) (acc : Option PyExc) (p : Provider) :
    Option PyExc :=
  match p.generate req with
  | Except.error e => Option.some e
  | Except.ok _ => acc

/-- The exception captured last after the whole chain has been traversed. -/
def lastErrorOf (req : LLMRequest) (ps : List Provider) : Option PyExc :=
  ps.foldl (updLastError req) Option.none

/-! ## Spell-check and post-processing (`src/pdf_convert/postprocessing.py`) -/

/-- `SpellCheckConfig`.  `custom_dictionary` is the allowlist iterable; the
constructor turns it into `self._custom_words = set(... or [])`, modelled as
list membership. -/
structure SpellCheckConfig where
  language : String := "vi"
  custom_dictionary : List String := []
  use_languagetool : Bool := true
  use_pyvi : Bool := true

/-- `SpellCheckResult`. -/
structure SpellCheckResult where
  original_text : String
  corrected_text : String
  corrections : List String

/-- One LanguageTool match: its ordered replacement suggestions
(`matches[i].replacements`). -/
structure LangToolMatch where
  replacements : List String

/-- The external collaborators of the embedded modules, as deterministic
behaviours: availability of the optional imports, the behaviour of the
LanguageTool `check` call, the `pyvi` tokenizer, the default Ollama
adapter's `generate` (a network call), and `hashlib.sha256(...).hexdigest()`
(no claim depends on the digest's value, so it stays abstract here). -/
structure PyEnv where
  languageToolAvailable : Bool := true
  langToolCheck : String → List LangToolMatch := fun _ => []
  pyviAvailable : Bool := true
  viTokenize : String → String := fun s => s
  ollamaGenerate : LLMRequest → Except PyExc LLMResponse :=
    fun _ => Except.error (.runtimeError "connection refused")
  sha256hex : List Nat → String := fun _ => ""

/-- `SpellChecker._load_language_tool`: `None` when `use_languagetool` is
off; an `ImportError` when the `language_tool_python` import fails; otherwise
the tool (`true`; its `check` behaviour lives in the environment). -/
def load_language_tool (env : PyEnv) (cfg : SpellCheckConfig) :
    Except PyExc Bool :=
  if !cfg.use_languagetool then Except.ok false
  else if !env.languageToolAvailable then
    Except.error (.importError "language_tool_python is required for spell-checking.")
  else Except.ok true

/-- Worker for Python `str.split()` with no argument: the maximal runs of
non-whitespace characters, in order; `acc` holds the current run reversed. -/
def wsSplitGo : List Char → List Char → List String
  | [], acc => if acc.isEmpty then [] else [String.mk acc.reverse]
  | c :: cs, acc =>
      if c.isWhitespace then
        if acc.isEmpty then wsSplitGo cs []
        else String.mk acc.reverse :: wsSplitGo cs []
      else wsSplitGo cs (c :: acc)

/-- Python `text.split()`. -/
def pySplitWS (s : String) : List String :=
  wsSplitGo s.data []

/-- Python `" ".join(tokens)`. -/
def joinWithSpace : List String → String
  | [] => ""
  | [t] => t
  | t :: rest => t ++ " " ++ joinWithSpace rest

/-- `SpellChecker._tokenize`: plain whitespace split when `use_pyvi` is off;
otherwise `ViTokenizer.tokenize(text).split()` (an `ImportError` when `pyvi`
is missing). -/
def spellTokenize (env : PyEnv) (cfg : SpellCheckConfig) (text : String) :
    Except PyExc (List String) :=
  if !cfg.use_pyvi then Except.ok (pySplitWS text)
  else if !env.pyviAvailable then
    Except.error (.importError "pyvi is required for Vietnamese tokenisation.")
  else Except.ok (pySplitWS (env.viTokenize text))

/-- The per-token step of the `for token in tokens` loop of
`SpellChecker.correct`: the corrected token plus the optional
`"token -> suggestion"` correction record. -/
def correctToken (env : PyEnv) (customWords : List String) (hasTool : Bool)
    (token : String) : String × Option String :=
  if token ∈ customWords then (token, Option.none)
  else if !hasTool then (token, Option.none)
  else
    match env.langToolCheck token with
    | [] => (token, Option.none)
    | m :: _ =>
        let suggestion :=
          match m.replacements with
          | [] => token
          | r :: _ => r
        (suggestion, Option.some (token ++ " -> " ++ suggestion))

/-- `SpellChecker.correct`. -/
def SpellChecker.correct (env : PyEnv) (cfg : SpellCheckConfig)
    (text : String) : Except PyExc SpellCheckResult :=
  match load_language_tool env cfg with
  | Except.error e => Except.error e
  | Except.ok hasTool =>
      match spellTokenize env cfg text with
      | Except.error e => Except.error e
      | Except.ok tokens =>
          let steps := tokens.map (correctToken env cfg.custom_dictionary hasTool)
          Except.ok
            { original_text := text,
              corrected_text := joinWithSpace (steps.map (·.1)),
              corrections := steps.filterMap (·.2) }

/-- `dictionary.get(token, token)` on the domain-terminology mapping. -/
def strDictGetD (dictionary : List (String × String)) (token : String) :
    String :=
  match dictionary.find? (fun kv => kv.1 == token) with
  | Option.some kv => kv.2
  | Option.none => token

/-- `apply_internal_dictionary`. -/
def apply_internal_dictionary (text : String)
    (dictionary : List (String × String)) : String :=
  joinWithSpace ((pySplitWS text).map (strDictGetD dictionary))

/-- `LLMPostProcessorConfig`: `providers=None` selects the default
`[OllamaProvider()]`. -/
structure LLMPostProcessorConfig where
  providers : Option (List Provider) := Option.none
  cache_enabled : Bool := true

/-- The provider list `LLMPostProcessor.__init__` builds from its config. -/
def resolveProviders (env : PyEnv) (cfg : LLMPostProcessorConfig) :
    List Provider :=
  match cfg.providers with
  | Option.none => [{ name := "ollama", generate := env.ollamaGenerate }]
  | Option.some ps => ps

/-- `PostProcessingConfig`. -/
structure PostProcessingConfig where
  spell_check : SpellCheckConfig := {}
  confidence_threshold : ℚ := 85 / 100
  enable_llm : Bool := true
  llm : LLMPostProcessorConfig := {}
  custom_dictionary : List (String × String) := []

/-- `PostProcessingResult` exactly as declared (`@dataclass(slots=True)`):
five slots.  Note there is no `attempts` slot and no `llm_raw` slot. -/
structure PostProcessingResult where
  original_text : String
  spell_checked_text : String
  llm_text : Option String
  corrections : List String
  provider : Option String := Option.none

/-- The `final_text` property: `self.llm_text or self.spell_checked_text`
(`None` and the empty string are falsy). -/
def PostProcessingResult.final_text (r : PostProcessingResult) : String :=
  match r.llm_text with
  | Option.some t => pyOrStr t r.spell_checked_text
  | Option.none => r.spell_checked_text

/-- `OCRPostProcessor.process_page`.  The engine cache is the run-scoped
mutable state of `self.llm_processor`, passed in and returned; the last
component is the provider-invocation log of the `enrich` call (empty when
enrichment did not run).  The `enrich` call receives the dictionary-mapped
text (the source wraps it in a fresh `OCRResult`; only its `text` reaches the
prompt). -/
def process_page (env : PyEnv) (cfg : PostProcessingConfig)
    (cache : List (String × LLMResponse)) (ocr : OCRResult)
    (layout : Option PyVal) (page_hash : Option String)
    (llm_model : Option String) :
    Except PyExc (PostProcessingResult × List (String × LLMResponse) × List String) :=
  match SpellChecker.correct env cfg.spell_check ocr.text with
  | Except.error e => Except.error e
  | Except.ok spell_result =>
      let mapped_text :=
        apply_internal_dictionary spell_result.corrected_text cfg.custom_dictionary
      if shouldRunLLM cfg.enable_llm cfg.confidence_threshold ocr.confidence layout then
        match enrich env.sha256hex (resolveProviders env cfg.llm)
            cfg.llm.cache_enabled cache mapped_text layout llm_model page_hash with
        | (Except.error e, _, _) => Except.error e
        | (Except.ok respOpt, cache1, log) =>
            Except.ok
              ({ original_text := ocr.text,
                 spell_checked_text := mapped_text,
                 llm_text := respOpt.map (·.text),
                 corrections := spell_result.corrections,
                 provider :=
                   match respOpt with
                   | Option.some resp => resp.provider
                   | Option.none => Option.none },
               cache1, log)
      else
        Except.ok
          ({ original_text := ocr.text, spell_checked_text := mapped_text,
             llm_text := Option.none, corrections := spell_result.corrections,
             provider := Option.none },
           cache, [])

/-! ## Backend pipeline (`src/backend/pipeline.py`) -/

/-- `average_confidence` as computed by `OCRPipeline.run`:
`sum(res.confidence or 0.0 for res in results) / max(len(results), 1)`.
`confidence or 0.0` maps `None` to `0.0` and keeps every number (a stored
`0.0` is falsy but `or` then yields `0.0`, the same value), hence `getD 0`.
The value is stored verbatim as the `average_confidence` payload field. -/
def averageConfidence (results : List OCRResult) : ℚ :=
  (results.map (fun r => r.confidence.getD 0)).sum /
    ((max results.length 1 : Nat) : ℚ)

/-- The attribute-value shapes readable off a `PostProcessingResult`. -/
inductive PprAttrVal where
  | str (s : String)
  | optStr (s : Option String)
  | strList (xs : List String)

/-- CPython attribute lookup on the `slots=True` dataclass
`PostProcessingResult`: exactly the five declared slots and the `final_text`
property resolve; any other name raises `AttributeError`.  In particular
`attempts` and `llm_raw` — which `OCRPipeline.run` reads — are not attributes
of this class. -/
def pprGetattr (r : PostProcessingResult) (name : String) :
    Except PyExc PprAttrVal :=
  if name == "original_text" then Except.ok (.str r.original_text)
  else if name == "spell_checked_text" then Except.ok (.str r.spell_checked_text)
  else if name == "llm_text" then Except.ok (.optStr r.llm_text)
  else if name == "corrections" then Except.ok (.strList r.corrections)
  else if name == "provider" then Except.ok (.optStr r.provider)
  else if name == "final_text" then Except.ok (.str r.final_text)
  else
    Except.error
      (.attributeError ("PostProcessingResult object has no attribute " ++ name))

/-- One `page_details` entry as assembled by the per-page loop of
`OCRPipeline.run`. -/
structure PageDetail where
  page : Nat
  raw_text : String
  spell_checked_text : String
  llm_text : Option String
  final_text : String
  confidence : Option ℚ
  provider : Option String
  corrections : List String
  attempts : List PyVal

/-- Exceptions as classified by the pipeline/worker layer:
`LLMProcessingError` (with its `attempts` payload), `PipelineDependencyError`,
or an uncaught plain Python exception. -/
inductive PipelineErr where
  | llmProcessing (msg : String) (attempts : List PyVal)
  | dependency (msg : String)
  | py (e : PyExc)

/-- The body of the `for index, result in enumerate(results, start=1)` loop
of `OCRPipeline.run`, for the case `postprocessor is not None` (enrichment
configured).  Faithful to the source order: `process_page` runs inside
`try/except Exception` — on a raise the loop re-raises
`LLMProcessingError("LLM post-processing failed", attempts=...)` where the
attempts come from `getattr(postprocessor.llm_processor, "last_attempts", [])`,
an attribute `LLMPostProcessor` never defines, hence `[]`.  On success the
loop reads `post_result.spell_checked_text`, `.corrections`, `.llm_text`,
`.provider`, and then `post_result.attempts` — which is not a slot of the
dataclass, so the read itself raises. -/
def runPageStep (env : PyEnv) (cfg : PostProcessingConfig)
    (cache : List (String × LLMResponse)) (job_id : String) (index : Nat)
    (result : OCRResult) (llm_model : Option String) :
    Except PipelineErr (PageDetail × List (String × LLMResponse)) :=
  match process_page env cfg cache result (Option.some (.dict []))
      (Option.some (job_id ++ ":" ++ toString index)) llm_model with
  | Except.error _ =>
      Except.error (.llmProcessing "LLM post-processing failed" [])
  | Except.ok (post_result, cache1, _log) =>
      let spell_checked := post_result.spell_checked_text
      let corrections := post_result.corrections
      let llm_text := post_result.llm_text
      let provider_name := post_result.provider
      match pprGetattr post_result "attempts" with
      | Except.error e => Except.error (.py e)
      | Except.ok _ =>
          -- never reached (`attempts` is not an attribute); the entry the
          -- remaining source lines would build is kept for structure
          Except.ok
            ({ page := index, raw_text := result.text,
               spell_checked_text := spell_checked, llm_text := llm_text,
               final_text := post_result.final_text,
               confidence := result.confidence, provider := provider_name,
               corrections := corrections, attempts := [] },
             cache1)

/-! ## Worker task (`src/backend/tasks.py`) -/

/-- `JobStatus` from `src/backend/models.py`. -/
inductive JobStatus where
  | pending
  | processing
  | completed
  | failed
  deriving Repr, DecidableEq

/-- The job-record columns `process_pdf` reads or writes. -/
structure JobRec where
  status : JobStatus
  result_path : Option String := Option.none
  result_payload : Option PyVal := Option.none
  error_message : Option String := Option.none

/-- The outcome of `OCRPipeline.run` as observed by `process_pdf`: a
`PipelineResult` (the stored fields), or one of the exception classes its
`try/except` ladder distinguishes (`LLMProcessingError`,
`PipelineDependencyError`, any other `Exception`). -/
inductive RunOutcome where
  | success (output_path : String) (metadata : PyVal)
  | llmError (msg : String) (attempts : List PyVal)
  | dependencyError (msg : String)
  | otherError (msg : String)

/-- `process_pdf`, restricted to its job-record mutation (`append_job_log`
and `LOGGER` calls are collaborator side effects that do not touch the
record).  `jobLookup` is `_get_job`'s result: `None` both for a malformed
UUID and for a missing row, in which case the task returns without mutating
anything.  Otherwise the record is set to `PROCESSING` and the `try/except`
ladder around the coordinator stores the terminal status: `COMPLETED` with
result path/payload on success, `FAILED` with `error_message` on each of the
three exception classes. -/
def process_pdf (jobLookup : Option JobRec) (outcome : RunOutcome) :
    Option JobRec :=
  match jobLookup with
  | Option.none => Option.none
  | Option.some job =>
      let job1 : JobRec := { job with status := JobStatus.processing }
      Option.some
        (match outcome with
         | .success path meta =>
             { job1 with
                 status := JobStatus.completed,
                 result_path := Option.some path,
                 result_payload := Option.some meta }
         | .llmError msg _ =>
             { job1 with status := JobStatus.failed, error_message := Option.some msg }
         | .dependencyError msg =>
             { job1 with status := JobStatus.failed, error_message := Option.some msg }
         | .otherError msg =>
             { job1 with status := JobStatus.failed, error_message := Option.some msg })

/-! ## Artifact decoding (`OCRPipeline._decode_artifact`) and base64 -/

/-- The standard base64 alphabet. -/
def b64Alphabet : List Char :=
  "ABCDEFGHIJKLMNOPQRSTUVWXYZabcdefghijklmnopqrstuvwxyz0123456789+/".data

/-- Membership in the base64 alphabet. -/
def isB64Char (c : Char) : Bool :=
  b64Alphabet.contains c

/-- The 6-bit value of a base64 character. -/
def b64Index (c : Char) : Option Nat :=
  b64Alphabet.indexOf? c

/-- The base64 character of a 6-bit value. -/
def b64Char (n : Nat) : Char :=
  b64Alphabet.getD n 'A'

/-- The 6-bit groups of a byte list (big-endian across 3-byte quanta, the
final quantum possibly short). -/
def b64Sextets : List Nat → List Nat
  | [] => []
  | [b1] => [b1 / 4, b1 % 4 * 16]
  | [b1, b2] => [b1 / 4, b1 % 4 * 16 + b2 / 16, b2 % 16 * 4]
  | b1 :: b2 :: b3 :: rest =>
      b1 / 4 :: (b1 % 4 * 16 + b2 / 16) :: (b2 % 16 * 4 + b3 / 64) ::
        b3 % 64 :: b64Sextets rest

/-- Padding length of the canonical base64 encoding of `n` bytes. -/
def b64PadCount (n : Nat) : Nat :=
  match n % 3 with
  | 1 => 2
  | 2 => 1
  | _ => 0

/-- `base64.b64encode(bs)` (as text: the encoder's pure ASCII output). -/
def pyB64Encode (bs : List Nat) : String :=
  String.mk ((b64Sextets bs).map b64Char ++ List.replicate (b64PadCount bs.length) '=')

/-- Decoding of the data characters' 6-bit values, in quanta of four with a
possibly-short final quantum (2 or 3 values; a lone value is rejected before
this function is reached). -/
def b64DecodeSextets : List Nat → List Nat
  | s1 :: s2 :: s3 :: s4 :: rest =>
      (s1 * 4 + s2 / 16) :: (s2 % 16 * 16 + s3 / 4) :: (s3 % 4 * 64 + s4) ::
        b64DecodeSextets rest
  | [s1, s2] => [s1 * 4 + s2 / 16]
  | [s1, s2, s3] => [s1 * 4 + s2 / 16, s2 % 16 * 16 + s3 / 4]
  | _ => []

/-- `base64.b64decode(s)` for a `str` argument with CPython's default
(non-strict) semantics: the string must be pure ASCII, otherwise `ValueError`
— raised by `s.encode("ascii")` and *not* a `binascii.Error`; characters
outside the alphabet and `=` are discarded; the data characters before the
first `=` are decoded; a data count `≡ 1 (mod 4)` is a `binascii.Error`, and
an incomplete final quantum with no padding character present is the
`Incorrect padding` `binascii.Error`. -/
def pyB64Decode (s : String) : Except PyExc (List Nat) :=
  if !s.data.all (fun c => c.toNat < 128) then
    Except.error (.valueError "string argument should contain only ASCII characters")
  else
    let kept := s.data.filter (fun c => isB64Char c || c == '=')
    let data := kept.takeWhile (fun c => c != '=')
    let pads := kept.length - data.length
    if data.length % 4 == 1 then
      Except.error (.binasciiError "Invalid base64-encoded string")
    else if data.length % 4 != 0 && pads == 0 then
      Except.error (.binasciiError "Incorrect padding")
    else
      Except.ok (b64DecodeSextets (data.filterMap b64Index))

/-- The shapes an artifact value can take inside a raw enrichment response
(the argument of `_decode_artifact`): `None`, `bytes`, `str`, `int`, a
mapping with a `content` value and an `encoding` value that may itself be
any Python value (`Option.none` models an absent `encoding` key, which
`value.get("encoding", "base64")` replaces by the string `"base64"`), or any
other object. -/
inductive ArtifactVal where
  | pynone
  | bytes (bs : List Nat)
  | str (s : String)
  | int (n : Int)
  | dict (content : ArtifactVal) (encoding : Option ArtifactVal)
  | other

/-- The Python type name of a modelled value, as it appears in
`AttributeError` messages (`other` stands for an unspecified object). -/
def ArtifactVal.pyTypeName : ArtifactVal → String
  | .pynone => "NoneType"
  | .bytes _ => "bytes"
  | .str _ => "str"
  | .int _ => "int"
  | .dict _ _ => "dict"
  | .other => "object"

/-- ASCII lower-casing of one character (Python `str.lower()`, restricted to
ASCII, which covers every encoding token the decoder compares against). -/
def pyLowerChar (c : Char) : Char :=
  if 65 <= c.toNat && c.toNat <= 90 then Char.ofNat (c.toNat + 32) else c

/-- Python `s.lower()` for ASCII strings. -/
def pyLower (s : String) : String :=
  String.mk (s.data.map pyLowerChar)

/-- `OCRPipeline._decode_artifact`.  Only `binascii.Error` is caught on the
base64 paths (`except binascii.Error`), so the `ValueError` a non-ASCII
string raises propagates.  In the mapping case with `str` content,
`encoding == "base64"` is Python equality — false for every non-string
encoding — and the subsequent `encoding.lower()` raises `AttributeError` for
values with no `lower` method (`None`, `int`, `dict`, arbitrary objects); a
`bytes` encoding does have `lower`, but its `bytes` result is never a member
of the `str` set `{"utf-8", "text"}`, so it falls through to `None`.
(CPython quotes the type name in the `AttributeError` message; the quotes
are elided here.) -/
def decode_artifact : ArtifactVal → Except PyExc (Option (List Nat))
  | .pynone => Except.ok Option.none
  | .bytes bs => Except.ok (Option.some bs)
  | .str s =>
      match pyB64Decode s with
      | Except.ok bs => Except.ok (Option.some bs)
      | Except.error (.binasciiError _) => Except.ok (Option.some (utf8Bytes s))
      | Except.error e => Except.error e
  | .dict content encoding =>
      let enc := encoding.getD (.str "base64")
      match content with
      | .bytes bs => Except.ok (Option.some bs)
      | .str c =>
          match enc with
          | .str e =>
              if e == "base64" then
                match pyB64Decode c with
                | Except.ok bs => Except.ok (Option.some bs)
                | Except.error (.binasciiError _) =>
                    Except.ok (Option.some (utf8Bytes c))
                | Except.error e2 => Except.error e2
              else if pyLower e == "utf-8" || pyLower e == "text" then
                Except.ok (Option.some (utf8Bytes c))
              else Except.ok Option.none
          | .bytes _ => Except.ok Option.none
          | badEnc =>
              Except.error
                (.attributeError
                  (badEnc.pyTypeName ++ " object has no attribute lower"))
      | _ => Except.ok Option.none
  | .int _ => Except.ok Option.none
  | .other => Except.ok Option.none

/-! ## Concrete fixtures used to evaluate the embedded code -/

/-- A fixed digest function used when evaluating the engine on concrete
inputs (the claims hold for every digest function). -/
def constDigest : List Nat → String :=
  fun _ => "digest"

/-- A provider that answers `"ok"` (the successful single provider of the
cache scenario). -/
def provOk : Provider :=
  { name := "prov",
    generate := fun _ =>
      Except.ok { text := "ok", raw := Option.none, provider := Option.some "prov" } }

/-- The response `provOk` returns. -/
def respOk : LLMResponse :=
  { text := "ok", raw := Option.none, provider := Option.some "prov" }

/-- A provider whose `generate` raises (the failing primary `A`). -/
def provA : Provider :=
  { name := "A", generate := fun _ => Except.error (.runtimeError "primary down") }

/-- A provider that succeeds with `"ok"` (the fallback `B`). -/
def provB : Provider :=
  { name := "B",
    generate := fun _ =>
      Except.ok { text := "ok", raw := Option.none, provider := Option.some "B" } }

/-- The response `provB` returns. -/
def respB : LLMResponse :=
  { text := "ok", raw := Option.none, provider := Option.some "B" }

/-- A provider that returns empty text without raising. -/
def provEmpty : Provider :=
  { name := "p",
    generate := fun _ =>
      Except.ok { text := "", raw := Option.none, provider := Option.some "p" } }

/-- The default collaborator environment used for concrete evaluations. -/
def envDefault : PyEnv := {}

/-- An environment in which the `language_tool_python` import fails. -/
def envNoLangTool : PyEnv := { languageToolAvailable := false }

/-- Configuration with linting and `pyvi` disabled and enrichment off
(used to evaluate the normalization path on its own). -/
def cfgNoTools : PostProcessingConfig :=
  { spell_check := { use_languagetool := false, use_pyvi := false },
    enable_llm := false }

/-- Configuration with linting and `pyvi` disabled and a single always-ok
provider configured (enrichment on). -/
def cfgEnrich : PostProcessingConfig :=
  { spell_check := { use_languagetool := false, use_pyvi := false },
    enable_llm := true,
    llm := { providers := Option.some [provOk], cache_enabled := true } }

/-- An OCR page with confidence `0.5`. -/
def ocrHalf : OCRResult :=
  { text := "a", confidence := Option.some (1 / 2) }

/-- An OCR page with unknown (`None`) confidence. -/
def ocrNone : OCRResult :=
  { text := "b" }

/-! ## Theorems -/


theorem cacheLookup_cacheStore (cache : List (String × LLMResponse))
    (key : String) (resp : LLMResponse) :
    cacheLookup (cacheStore cache key resp) key = Option.some resp := by
  induction cache with
  | nil => simp [cacheStore, cacheLookup, List.find?]
  | cons kv rest ih =>
    by_cases h : kv.1 = key
    · simp [cacheStore, cacheLookup, List.find?, h]
    · simpa [cacheStore, cacheLookup, List.find?, h] using ih

/-- If the fallback loop exhausts a chain in which every provider fails (hard
or soft), it raises the last captured exception when there is one, returns
`None` otherwise, leaves the cache untouched, and has invoked every provider
in order. -/
theorem enrichLoop_all_fail (cacheEnabled : Bool) (key : String)
    (req : LLMRequest) (ps : List Provider) :
    ∀ (lastE : Option PyExc) (cache : List (String × LLMResponse)),
      (∀ p ∈ ps, p.failsOn req = true) →
      enrichLoop cacheEnabled key req ps lastE cache =
        (match ps.foldl (updLastError req) lastE with
         | Option.some e => Except.error e
         | Option.none => Except.ok Option.none, cache, ps.map (·.name)) := by
  induction ps with
  | nil => intro lastE cache _; simp [enrichLoop]
  | cons p rest ih =>
    intro lastE cache hfail
    have hp : p.failsOn req = true := hfail p (by simp)
    have hrest : ∀ q ∈ rest, q.failsOn req = true := by
      intro q hq; exact hfail q (by simp [hq])
    simp only [enrichLoop]
    cases hgen : p.generate req with
    | error e =>
        simp only [List.foldl_cons, List.map_cons]
        rw [ih (Option.some e) cache hrest]
        simp [updLastError, hgen]
    | ok resp =>
        have hblank : isBlank resp.text = true := by
          simpa [Provider.failsOn, hgen] using hp
        simp only [hblank, if_true, List.foldl_cons, List.map_cons]
        rw [ih lastE cache hrest]
        simp [updLastError, hgen]

/-- If the fallback loop returns a response with caching enabled, that
response is cached under the loop's key. -/
theorem enrichLoop_success_caches (key : String) (req : LLMRequest)
    (ps : List Provider) :
    ∀ (lastE : Option PyExc) (cache : List (String × LLMResponse))
      (r : LLMResponse) (cache1 : List (String × LLMResponse)) (log : List String),
      enrichLoop true key req ps lastE cache =
        (Except.ok (Option.some r), cache1, log) →
      cacheLookup cache1 key = Option.some r := by
  induction ps with
  | nil =>
    intro lastE cache r cache1 log h
    cases lastE <;> simp [enrichLoop] at h
  | cons p rest ih =>
    intro lastE cache r cache1 log h
    simp only [enrichLoop] at h
    cases hgen : p.generate req with
    | error e =>
        rw [hgen] at h
        simp only at h
        have h2 := congrArg Prod.fst h
        have h3 := congrArg (fun x => x.2.1) h
        simp only at h2 h3
        exact ih (Option.some e) cache r cache1
          (enrichLoop true key req rest (Option.some e) cache).2.2
          (by rw [← h2, ← h3])
    | ok resp =>
        rw [hgen] at h
        simp only at h
        by_cases hblank : isBlank resp.text
        · simp only [hblank, if_true] at h
          have h2 := congrArg Prod.fst h
          have h3 := congrArg (fun x => x.2.1) h
          simp only at h2 h3
          exact ih lastE cache r cache1
            (enrichLoop true key req rest lastE cache).2.2 (by rw [← h2, ← h3])
        · simp only [hblank, if_false] at h
          have h1 : Except.ok (Option.some resp) =
              (Except.ok (Option.some r) :
                Except PyExc (Option LLMResponse)) := congrArg Prod.fst h
          have hr : resp = r := by
            injection h1 with h1'
            exact Option.some.inj h1'
          have hc : cacheStore cache key resp = cache1 := by
            have := congrArg (fun x => x.2.1) h
            simpa using this
          subst hr
          rw [← hc]
          exact cacheLookup_cacheStore cache key resp

/-- C7: with enrichment enabled and providers resolved (`self.llm_processor`
non-`None`), `_should_run_llm` returns `true` exactly when the confidence is
`None`, or strictly below the threshold (default `0.85`), or the layout
metadata holds a table descriptor flagged via `missing_cells`, `gaps` or
`needs_completion`; in particular the three concrete spec cases hold. -/
theorem shouldRunLLM_matches_spec :
    (∀ (θ : ℚ) (c : Option ℚ) (md : Option PyVal),
        shouldRunLLM true θ c md = shouldEnrichSpec true θ c md) ∧
    shouldRunLLM true (85/100) (Option.some (1/2)) (Option.some (.dict [])) = true ∧
    shouldRunLLM true (85/100) (Option.some (19/20))
        (Option.some (.dict [("tables", PyVal.list [])])) = false ∧
    shouldRunLLM true (85/100) Option.none (Option.some (.dict [])) = true := by
  refine ⟨?_, ?conc1, ?conc2, ?conc3⟩
  case conc1 => norm_num [shouldRunLLM, PyVal.truthy, dictGet]
  case conc2 => norm_num [shouldRunLLM, PyVal.truthy, dictGet, tableFlagged]
  case conc3 => norm_num [shouldRunLLM]
  intro θ c md
  cases c with
  | none => simp [shouldRunLLM, shouldEnrichSpec]
  | some cv =>
    by_cases h : cv < θ
    · simp [shouldRunLLM, shouldEnrichSpec, h]
    · cases md with
      | none => simp [shouldRunLLM, shouldEnrichSpec, h]
      | some v =>
        cases v with
        | dict es =>
          cases es with
          | nil => simp [shouldRunLLM, shouldEnrichSpec, h, PyVal.truthy, dictGet]
          | cons kv rest =>
            simp [shouldRunLLM, shouldEnrichSpec, h, PyVal.truthy]
        | none => simp [shouldRunLLM, shouldEnrichSpec, h, PyVal.truthy]
        | bool b => cases b <;> simp [shouldRunLLM, shouldEnrichSpec, h, PyVal.truthy]
        | int n => simp [shouldRunLLM, shouldEnrichSpec, h, PyVal.truthy]
        | str s => simp [shouldRunLLM, shouldEnrichSpec, h, PyVal.truthy]
        | list xs => simp [shouldRunLLM, shouldEnrichSpec, h, PyVal.truthy]

/-- Traversing a prefix of providers that all fail (hard or soft) only
accumulates the last captured error and the invocation log. -/
theorem enrichLoop_prefix_fail (cacheEnabled : Bool) (key : String)
    (req : LLMRequest) (ps2 : List Provider) :
    ∀ (ps1 : List Provider) (lastE : Option PyExc)
      (cache : List (String × LLMResponse)),
      (∀ q ∈ ps1, q.failsOn req = true) →
      enrichLoop cacheEnabled key req (ps1 ++ ps2) lastE cache =
        ((enrichLoop cacheEnabled key req ps2
            (ps1.foldl (updLastError req) lastE) cache).1,
         (enrichLoop cacheEnabled key req ps2
            (ps1.foldl (updLastError req) lastE) cache).2.1,
         ps1.map (·.name) ++
           (enrichLoop cacheEnabled key req ps2
              (ps1.foldl (updLastError req) lastE) cache).2.2) := by
  intro ps1
  induction ps1 with
  | nil => intro lastE cache _; simp
  | cons p rest ih =>
    intro lastE cache hfail
    have hp : p.failsOn req = true := hfail p (by simp)
    have hrest : ∀ q ∈ rest, q.failsOn req = true := by
      intro q hq; exact hfail q (by simp [hq])
    simp only [List.cons_append, enrichLoop, List.append_eq]
    cases hgen : p.generate req with
    | error e =>
        simp only [List.append_eq]
        rw [ih (Option.some e) cache hrest]
        simp [updLastError, hgen]
    | ok resp =>
        have hblank : isBlank resp.text = true := by
          simpa [Provider.failsOn, hgen] using hp
        simp only [hblank, if_true, List.append_eq]
        rw [ih lastE cache hrest]
        simp [updLastError, hgen]

/-- C4: for a chain in which every provider of a prefix fails (raises or
returns blank text) and the next provider returns non-empty text, `enrich`
on a fresh engine returns that provider's response and has invoked exactly
the prefix providers, in chain order, followed by the succeeding one.  With
prefix `[A]` and succeeding provider `B` answering `"ok"` this is the spec's
scenario: text `"ok"`, provider `"B"`, `A` invoked exactly once, before `B`. -/
theorem enrich_fallback_ordering (sha256hex : List Nat → String)
    (cacheEnabled : Bool) (text : String) (layout : Option PyVal)
    (model page_hash : Option String) (ps1 : List Provider) (p : Provider)
    (ps2 : List Provider) (resp : LLMResponse)
    (hfail : ∀ q ∈ ps1, q.failsOn (enrichRequest text layout model) = true)
    (hgen : p.generate (enrichRequest text layout model) = Except.ok resp)
    (hne : isBlank resp.text = false) :
    (enrich sha256hex (ps1 ++ p :: ps2) cacheEnabled [] text layout
        model page_hash).1 = Except.ok (Option.some resp) ∧
    (enrich sha256hex (ps1 ++ p :: ps2) cacheEnabled [] text layout
        model page_hash).2.2 = ps1.map (·.name) ++ [p.name] := by
  have hnil : cacheLookup ([] : List (String × LLMResponse))
      (cache_key sha256hex
        (Option.some (pyOrOptStr page_hash (promptFromContext text layout)))
        model) = Option.none := rfl
  cases cacheEnabled <;>
    · simp only [enrich, hnil]
      rw [enrichLoop_prefix_fail _ _ _ _ ps1 Option.none [] hfail]
      simp [enrichLoop, hgen, hne]

/-- C4 witness: the concrete `[A(raises), B(ok)]` chain. -/
theorem enrich_fallback_ordering_witness :
    (enrich constDigest [provA, provB] true [] "t" Option.none Option.none
        Option.none).1 = Except.ok (Option.some respB) ∧
    (enrich constDigest [provA, provB] true [] "t" Option.none Option.none
        Option.none).2.2 = ["A", "B"] := by
  have h := enrich_fallback_ordering constDigest true "t" Option.none
    Option.none Option.none [provA] provB [] respB
    (by intro q hq; simp at hq; subst hq; rfl) rfl rfl
  exact ⟨h.1, h.2.trans rfl⟩

/-- C5 counterexample: a non-empty chain whose single provider returns empty
text.  Every provider in the chain "fails", yet `enrich` raises nothing and
returns `None` — there is no captured exception to propagate, contradicting
the claim that the last captured exception is propagated whenever every
provider fails or returns empty text. -/
theorem enrich_all_empty_counterexample :
    (enrich constDigest [provEmpty] true [] "t" Option.none Option.none
        Option.none).1 = Except.ok Option.none ∧
    didRaise (enrich constDigest [provEmpty] true [] "t" Option.none
        Option.none Option.none).1 = false :=
  ⟨rfl, rfl⟩

/-- C5 (amended): when every provider in the chain fails or returns empty
text, `enrich` raises the last *captured* exception if at least one provider
raised; if no exception was captured — every provider returned empty text
without raising, or the chain is empty — it returns `None` without raising.
The cache is untouched and every provider was invoked in order. -/
theorem enrich_exhaustion_behaviour :
    (∀ (sha256hex : List Nat → String) (cacheEnabled : Bool) (text : String)
       (layout : Option PyVal) (model page_hash : Option String)
       (ps : List Provider),
       (∀ q ∈ ps, q.failsOn (enrichRequest text layout model) = true) →
       enrich sha256hex ps cacheEnabled [] text layout model page_hash =
         ((match lastErrorOf (enrichRequest text layout model) ps with
           | Option.some e => Except.error e
           | Option.none => Except.ok Option.none),
          [], ps.map (·.name))) ∧
    (∀ (sha256hex : List Nat → String) (cacheEnabled : Bool) (text : String)
       (layout : Option PyVal) (model page_hash : Option String),
       enrich sha256hex [] cacheEnabled [] text layout model page_hash =
         (Except.ok Option.none, [], [])) := by
  constructor
  · intro sha256hex cacheEnabled text layout model page_hash ps hfail
    have hnil : cacheLookup ([] : List (String × LLMResponse))
        (cache_key sha256hex
          (Option.some (pyOrOptStr page_hash (promptFromContext text layout)))
          model) = Option.none := rfl
    cases cacheEnabled <;>
      · simp only [enrich, hnil]
        rw [enrichLoop_all_fail _ _ _ _ Option.none [] hfail]
        rfl
  · intro sha256hex cacheEnabled text layout model page_hash
    cases cacheEnabled <;> rfl

/-- C5 witness: a single raising provider — its exception is re-raised. -/
theorem enrich_exhaustion_behaviour_witness :
    enrich constDigest [provA] true [] "t" Option.none Option.none
        Option.none =
      (Except.error (PyExc.runtimeError "primary down"), [], ["A"]) := by
  have h := enrich_exhaustion_behaviour.1 constDigest true "t" Option.none
    Option.none Option.none [provA]
    (by intro q hq; simp at hq; subst hq; rfl)
  exact h.trans rfl

/-- C3: with caching enabled, (i) whenever a call to `enrich` returns a
response, the identical call on the resulting engine state returns the very
same response, leaves the state unchanged and invokes no provider at all;
(ii) on a fresh engine with one provider that deterministically returns
non-empty text, the first call invokes the provider exactly once and the
second identical call returns the same response with no invocation — the
provider is invoked exactly once across the two calls. -/
theorem enrich_cache_idempotent :
    (∀ (sha256hex : List Nat → String) (ps : List Provider)
       (cache : List (String × LLMResponse)) (text : String)
       (layout : Option PyVal) (model page_hash : Option String)
       (r : LLMResponse) (cache1 : List (String × LLMResponse))
       (log1 : List String),
       enrich sha256hex ps true cache text layout model page_hash =
         (Except.ok (Option.some r), cache1, log1) →
       enrich sha256hex ps true cache1 text layout model page_hash =
         (Except.ok (Option.some r), cache1, [])) ∧
    (∀ (sha256hex : List Nat → String) (p : Provider) (text : String)
       (layout : Option PyVal) (model page_hash : Option String)
       (resp : LLMResponse),
       p.generate (enrichRequest text layout model) = Except.ok resp →
       isBlank resp.text = false →
       (enrich sha256hex [p] true [] text layout model page_hash).1 =
           Except.ok (Option.some resp) ∧
       (enrich sha256hex [p] true [] text layout model page_hash).2.2 =
           [p.name] ∧
       enrich sha256hex [p] true
           (enrich sha256hex [p] true [] text layout model page_hash).2.1
           text layout model page_hash =
         (Except.ok (Option.some resp),
          (enrich sha256hex [p] true [] text layout model page_hash).2.1,
          [])) := by
  constructor
  · intro sha256hex ps cache text layout model page_hash r cache1 log1 h
    simp only [enrich] at h ⊢
    cases hl : cacheLookup cache
        (cache_key sha256hex
          (Option.some (pyOrOptStr page_hash (promptFromContext text layout)))
          model) with
    | some cached =>
        rw [hl] at h
        simp only at h
        have h1 : cached = r := by
          have := congrArg Prod.fst h
          simp only at this
          injection this with this'
          exact Option.some.inj this'
        have h2 : cache = cache1 := congrArg (fun x => x.2.1) h
        subst h1; subst h2
        rw [hl]
    | none =>
        rw [hl] at h
        simp only at h
        have hcached := enrichLoop_success_caches _ _ _ _ _ _ _ _ h
        rw [hcached]
  · intro sha256hex p text layout model page_hash resp hgen hne
    have hnil : cacheLookup ([] : List (String × LLMResponse))
        (cache_key sha256hex
          (Option.some (pyOrOptStr page_hash (promptFromContext text layout)))
          model) = Option.none := rfl
    have hfirst :
        enrich sha256hex [p] true [] text layout model page_hash =
          (Except.ok (Option.some resp),
           cacheStore [] (cache_key sha256hex
             (Option.some (pyOrOptStr page_hash (promptFromContext text layout)))
             model) resp,
           [p.name]) := by
      simp only [enrich, hnil]
      simp [enrichLoop, hgen, hne]
    refine ⟨by rw [hfirst], by rw [hfirst], ?_⟩
    rw [hfirst]
    simp only [enrich, cacheLookup_cacheStore]

/-- C3 witness: the single-provider scenario evaluated at `provOk`, plus the
general clause applied to the concrete first call. -/
theorem enrich_cache_idempotent_witness :
    (enrich constDigest [provOk] true [] "t" Option.none Option.none
        (Option.some "hash")).1 = Except.ok (Option.some respOk) ∧
    (enrich constDigest [provOk] true [] "t" Option.none Option.none
        (Option.some "hash")).2.2 = ["prov"] ∧
    enrich constDigest [provOk] true
        (enrich constDigest [provOk] true [] "t" Option.none Option.none
          (Option.some "hash")).2.1
        "t" Option.none Option.none (Option.some "hash") =
      (Except.ok (Option.some respOk),
       (enrich constDigest [provOk] true [] "t" Option.none Option.none
         (Option.some "hash")).2.1,
       []) := by
  have h2 := enrich_cache_idempotent.2 constDigest provOk "t" Option.none
    Option.none (Option.some "hash") respOk rfl rfl
  have h1 := enrich_cache_idempotent.1 constDigest [provOk] [] "t"
    Option.none Option.none (Option.some "hash") respOk
    (enrich constDigest [provOk] true [] "t" Option.none Option.none
      (Option.some "hash")).2.1
    (enrich constDigest [provOk] true [] "t" Option.none Option.none
      (Option.some "hash")).2.2 rfl
  exact ⟨h2.1, (h2.2.1).trans rfl, h1⟩

theorem wsSplitGo_eq_nil :
    ∀ (l : List Char) (acc : List Char), wsSplitGo l acc = [] →
      (∀ c ∈ l, c.isWhitespace = true) ∧ acc = [] := by
  intro l
  induction l with
  | nil =>
    intro acc h
    cases acc with
    | nil =>
      refine ⟨?_, rfl⟩
      intro c hc
      cases hc
    | cons a as => simp [wsSplitGo] at h
  | cons c cs ih =>
    intro acc h
    by_cases hws : c.isWhitespace
    · cases acc with
      | nil =>
        simp only [wsSplitGo, hws, if_true, List.isEmpty_nil] at h
        obtain ⟨hall, -⟩ := ih [] h
        refine ⟨?_, rfl⟩
        intro d hd
        rcases List.mem_cons.mp hd with h1 | h2
        · rw [h1]; exact hws
        · exact hall d h2
      | cons a as => simp [wsSplitGo, hws] at h
    · simp only [wsSplitGo, hws, if_false] at h
      obtain ⟨-, habs⟩ := ih (c :: acc) h
      cases habs

theorem wsSplitGo_not_blank :
    ∀ (l : List Char) (acc : List Char),
      (∀ c ∈ acc, c.isWhitespace = false) →
      ∀ t ∈ wsSplitGo l acc, isBlank t = false := by
  intro l
  induction l with
  | nil =>
    intro acc hacc t ht
    cases acc with
    | nil => simp [wsSplitGo] at ht
    | cons a as =>
      simp only [wsSplitGo, List.isEmpty_cons, if_false] at ht
      rcases List.mem_cons.mp ht with h1 | h2
      · rw [h1]
        apply List.all_eq_false.mpr
        refine ⟨a, ?_, ?_⟩
        · simp
        · simp [hacc a (by simp)]
      · cases h2
  | cons c cs ih =>
    intro acc hacc t ht
    by_cases hws : c.isWhitespace
    · cases acc with
      | nil =>
        simp only [wsSplitGo, hws, if_true, List.isEmpty_nil] at ht
        exact ih [] (by intro d hd; cases hd) t ht
      | cons a as =>
        simp only [wsSplitGo, hws, if_true, List.isEmpty_cons] at ht
        rcases List.mem_cons.mp ht with h1 | h2
        · rw [h1]
          apply List.all_eq_false.mpr
          refine ⟨a, by simp, by simp [hacc a (by simp)]⟩
        · exact ih [] (by intro d hd; cases hd) t h2
    · simp only [wsSplitGo, hws, if_false] at ht
      refine ih (c :: acc) ?_ t ht
      intro d hd
      rcases List.mem_cons.mp hd with h1 | h2
      · rw [h1]; simpa using hws
      · exact hacc d h2

theorem pySplitWS_ne_nil (s : String) (h : isBlank s = false) :
    pySplitWS s ≠ [] := by
  intro hnil
  obtain ⟨hall, -⟩ := wsSplitGo_eq_nil s.data [] hnil
  have : isBlank s = true := by
    simp only [isBlank]
    exact List.all_eq_true.mpr hall
  rw [this] at h
  cases h

theorem pySplitWS_not_blank (s : String) :
    ∀ t ∈ pySplitWS s, isBlank t = false :=
  wsSplitGo_not_blank s.data [] (by intro d hd; cases hd)

theorem isBlank_append (s t : String) :
    isBlank (s ++ t) = (isBlank s && isBlank t) := by
  simp [isBlank, String.data_append, List.all_append]

theorem isBlank_joinWithSpace :
    ∀ ts : List String, (∃ t ∈ ts, isBlank t = false) →
      isBlank (joinWithSpace ts) = false := by
  intro ts
  induction ts with
  | nil => intro h; obtain ⟨t, ht, -⟩ := h; cases ht
  | cons t rest ih =>
    intro h
    cases rest with
    | nil =>
      obtain ⟨u, hu, hb⟩ := h
      rcases List.mem_cons.mp hu with h1 | h2
      · rw [h1] at hb; exact hb
      · cases h2
    | cons v vs =>
      simp only [joinWithSpace, isBlank_append]
      obtain ⟨u, hu, hb⟩ := h
      rcases List.mem_cons.mp hu with h1 | h2
      · rw [h1] at hb; simp [hb]
      · have := ih ⟨u, h2, hb⟩
        simp [this]

theorem correctToken_fst_not_blank (env : PyEnv) (cw : List String)
    (hasTool : Bool) (token : String)
    (hrep : ∀ tok m ms, env.langToolCheck tok = m :: ms →
      ∀ rep reps, m.replacements = rep :: reps → isBlank rep = false)
    (htok : isBlank token = false) :
    isBlank (correctToken env cw hasTool token).1 = false := by
  by_cases hcw : token ∈ cw
  · simpa [correctToken, hcw] using htok
  · by_cases ht : hasTool
    · cases hchk : env.langToolCheck token with
      | nil => simpa [correctToken, hcw, ht, hchk] using htok
      | cons m ms =>
        cases hreps : m.replacements with
        | nil => simpa [correctToken, hcw, ht, hchk, hreps] using htok
        | cons rep reps =>
          have := hrep token m ms hchk rep reps hreps
          simpa [correctToken, hcw, ht, hchk, hreps] using this
    · simpa [correctToken, hcw, ht] using htok

theorem strDictGetD_not_blank (dictionary : List (String × String))
    (token : String)
    (hdict : ∀ kv ∈ dictionary, isBlank kv.2 = false)
    (htok : isBlank token = false) :
    isBlank (strDictGetD dictionary token) = false := by
  unfold strDictGetD
  cases hf : dictionary.find? (fun kv => kv.1 == token) with
  | none => exact htok
  | some kv => exact hdict kv (List.mem_of_find?_eq_some hf)

theorem enrichLoop_ok_not_blank (cacheEnabled : Bool) (key : String)
    (req : LLMRequest) :
    ∀ (ps : List Provider) (lastE : Option PyExc)
      (cache : List (String × LLMResponse)) (r : LLMResponse),
      (enrichLoop cacheEnabled key req ps lastE cache).1 =
        Except.ok (Option.some r) →
      isBlank r.text = false := by
  intro ps
  induction ps with
  | nil =>
    intro lastE cache r h
    cases lastE <;> simp [enrichLoop] at h
  | cons p rest ih =>
    intro lastE cache r h
    simp only [enrichLoop] at h
    cases hgen : p.generate req with
    | error e =>
        rw [hgen] at h
        exact ih (Option.some e) cache r h
    | ok resp =>
        rw [hgen] at h
        by_cases hblank : isBlank resp.text
        · simp only [hblank, if_true] at h
          exact ih lastE cache r h
        · simp only [hblank, if_false] at h
          injection h with h'
          have := Option.some.inj h'
          rw [← this]
          simpa using hblank

theorem enrich_ok_not_blank (sha256hex : List Nat → String)
    (ps : List Provider) (cacheEnabled : Bool)
    (cache : List (String × LLMResponse)) (text : String)
    (layout : Option PyVal) (model page_hash : Option String)
    (r : LLMResponse)
    (hcache : ∀ kv ∈ cache, isBlank kv.2.text = false)
    (h : (enrich sha256hex ps cacheEnabled cache text layout model
        page_hash).1 = Except.ok (Option.some r)) :
    isBlank r.text = false := by
  simp only [enrich] at h
  cases hl : cacheLookup cache
      (cache_key sha256hex
        (Option.some (pyOrOptStr page_hash (promptFromContext text layout)))
        model) with
  | some cached =>
      rw [hl] at h
      cases cacheEnabled with
      | true =>
          simp only at h
          injection h with h'
          have hr : cached = r := Option.some.inj h'
          simp only [cacheLookup] at hl
          cases hf : cache.find? (fun kv => kv.1 ==
              cache_key sha256hex
                (Option.some (pyOrOptStr page_hash (promptFromContext text layout)))
                model) with
          | none => rw [hf] at hl; cases hl
          | some kv =>
              rw [hf] at hl
              have hkv : kv.2 = cached :=
                Option.some.inj
                  (show Option.some kv.2 = Option.some cached from hl)
              have hmem := List.mem_of_find?_eq_some hf
              have := hcache kv hmem
              rw [hkv, hr] at this
              exact this
      | false =>
          simp only at h
          exact enrichLoop_ok_not_blank _ _ _ _ _ _ _ h
  | none =>
      rw [hl] at h
      cases cacheEnabled <;>
        · simp only at h
          exact enrichLoop_ok_not_blank _ _ _ _ _ _ _ h

theorem correctToken_noTool (env : PyEnv) (cw : List String) (token : String) :
    correctToken env cw false token = (token, Option.none) := by
  by_cases h : token ∈ cw <;> simp [correctToken, h]

theorem filterMap_snd_pair_none (tokens : List String) :
    (tokens.map (fun t => (t, (Option.none : Option String)))).filterMap (·.2)
      = [] := by
  induction tokens with
  | nil => rfl
  | cons t rest ih => simp [List.filterMap_cons, ih]

/-- C9 counterexample: with linting enabled in the configuration but the
`language_tool_python` library unavailable, `SpellChecker.correct` raises
`ImportError` instead of degrading to a pass-through. -/
theorem spellchecker_import_failure_counterexample :
    SpellChecker.correct envNoLangTool {} "van ban" =
      Except.error
        (PyExc.importError "language_tool_python is required for spell-checking.") ∧
    didRaise (SpellChecker.correct envNoLangTool {} "van ban") = true :=
  ⟨rfl, rfl⟩

/-- C9 (amended): normalization is a no-op pass-through — every token kept
unchanged, empty corrections — exactly when the linting capability is
*disabled by configuration*; when it is enabled but its library fails to
import, `correct` raises `ImportError` (fatal), it does not degrade. -/
theorem spellchecker_disabled_passthrough :
    (∀ (env : PyEnv) (cfg : SpellCheckConfig) (text : String),
       cfg.use_languagetool = false →
       SpellChecker.correct env cfg text =
         (match spellTokenize env cfg text with
          | Except.error e => Except.error e
          | Except.ok tokens =>
              Except.ok
                { original_text := text,
                  corrected_text := joinWithSpace tokens,
                  corrections := [] })) ∧
    (∀ (env : PyEnv) (cfg : SpellCheckConfig) (text : String),
       cfg.use_languagetool = true →
       env.languageToolAvailable = false →
       SpellChecker.correct env cfg text =
         Except.error
           (PyExc.importError
             "language_tool_python is required for spell-checking.")) := by
  constructor
  · intro env cfg text hlt
    simp only [SpellChecker.correct, load_language_tool, hlt, Bool.not_false,
      if_true]
    cases htok : spellTokenize env cfg text with
    | error e => rfl
    | ok tokens =>
        simp only
        have hmap : tokens.map (correctToken env cfg.custom_dictionary false) =
            tokens.map (fun t => (t, Option.none)) :=
          List.map_congr_left fun t _ => correctToken_noTool env _ t
        rw [hmap]
        simp only [List.map_map, filterMap_snd_pair_none]
        have hid : List.map
            ((fun (x : String × Option String) => x.1) ∘ fun t => (t, Option.none))
            tokens = tokens := by
          simp only [Function.comp_def]
          exact List.map_id tokens
        rw [hid]
  · intro env cfg text hlt hunavail
    simp [SpellChecker.correct, load_language_tool, hlt, hunavail]

/-- C9 witness: pass-through on `"van ban"` with linting disabled, and the
`ImportError` with linting enabled but the library missing. -/
theorem spellchecker_disabled_passthrough_witness :
    SpellChecker.correct envDefault
        { use_languagetool := false, use_pyvi := false } "van ban" =
      Except.ok
        { original_text := "van ban", corrected_text := "van ban",
          corrections := [] } ∧
    SpellChecker.correct envNoLangTool {} "x" =
      Except.error
        (PyExc.importError
          "language_tool_python is required for spell-checking.") := by
  have h1 := spellchecker_disabled_passthrough.1 envDefault
    { use_languagetool := false, use_pyvi := false } "van ban" rfl
  have h2 := spellchecker_disabled_passthrough.2 envNoLangTool {} "x" rfl rfl
  exact ⟨h1.trans rfl, h2⟩

theorem ne_empty_of_not_blank (s : String) (h : isBlank s = false) :
    s ≠ "" := by
  intro he
  rw [he] at h
  cases h

theorem spellCorrect_ok_not_blank (env : PyEnv) (cfg : SpellCheckConfig)
    (text : String) (sr : SpellCheckResult)
    (hpyvi : cfg.use_pyvi = false) (htext : isBlank text = false)
    (hrep : ∀ tok m ms, env.langToolCheck tok = m :: ms →
      ∀ rep reps, m.replacements = rep :: reps → isBlank rep = false)
    (h : SpellChecker.correct env cfg text = Except.ok sr) :
    isBlank sr.corrected_text = false := by
  unfold SpellChecker.correct at h
  cases hload : load_language_tool env cfg with
  | error e => rw [hload] at h; cases h
  | ok hasTool =>
    rw [hload] at h
    have htok : spellTokenize env cfg text = Except.ok (pySplitWS text) := by
      simp [spellTokenize, hpyvi]
    rw [htok] at h
    simp only at h
    injection h with h'
    rw [← h']
    simp only
    cases hts : pySplitWS text with
    | nil => exact absurd hts (pySplitWS_ne_nil text htext)
    | cons t0 ts =>
      apply isBlank_joinWithSpace
      refine ⟨(correctToken env cfg.custom_dictionary hasTool t0).1, ?_, ?_⟩
      · exact List.mem_map_of_mem _
          (List.mem_map_of_mem _ (List.mem_cons_self t0 ts))
      · exact correctToken_fst_not_blank env _ hasTool t0 hrep
          (pySplitWS_not_blank text t0 (hts ▸ List.mem_cons_self t0 ts))

theorem apply_internal_dictionary_not_blank
    (dictionary : List (String × String)) (text : String)
    (hdict : ∀ kv ∈ dictionary, isBlank kv.2 = false)
    (htext : isBlank text = false) :
    isBlank (apply_internal_dictionary text dictionary) = false := by
  unfold apply_internal_dictionary
  cases hts : pySplitWS text with
  | nil => exact absurd hts (pySplitWS_ne_nil text htext)
  | cons t0 ts =>
    apply isBlank_joinWithSpace
    refine ⟨strDictGetD dictionary t0, ?_, ?_⟩
    · exact List.mem_map_of_mem _ (List.mem_cons_self t0 ts)
    · exact strDictGetD_not_blank dictionary t0 hdict
        (pySplitWS_not_blank text t0 (hts ▸ List.mem_cons_self t0 ts))

/-- C6 counterexample: `" "` is a non-empty `original_text`, yet with
enrichment off and linting disabled `process_page` yields an empty
`final_text` (whitespace-only text tokenizes to nothing). -/
theorem process_page_whitespace_counterexample :
    process_page envDefault cfgNoTools []
        { text := " " } Option.none Option.none Option.none =
      Except.ok
        ({ original_text := " ", spell_checked_text := "",
           llm_text := Option.none, corrections := [],
           provider := Option.none }, [], []) ∧
    (" " : String) ≠ "" ∧
    PostProcessingResult.final_text
        { original_text := " ", spell_checked_text := "",
          llm_text := Option.none, corrections := [],
          provider := Option.none } = "" :=
  ⟨rfl, by decide, rfl⟩

/-- C6 (amended): `final_text` is non-empty whenever the page text contains a
non-whitespace character — given whitespace tokenization (`use_pyvi` off),
linter first-suggestions that are never blank, custom-dictionary values that
are never blank, and cached responses with non-blank text (the engine only
ever caches such responses).  Whitespace-only non-empty text, blank linter
suggestions or blank dictionary values can produce an empty `final_text`. -/
theorem process_page_final_text_nonempty
    (env : PyEnv) (cfg : PostProcessingConfig)
    (cache : List (String × LLMResponse)) (ocr : OCRResult)
    (layout : Option PyVal) (page_hash llm_model : Option String)
    (r : PostProcessingResult) (cache1 : List (String × LLMResponse))
    (log : List String)
    (hpyvi : cfg.spell_check.use_pyvi = false)
    (htext : isBlank ocr.text = false)
    (hrep : ∀ tok m ms, env.langToolCheck tok = m :: ms →
      ∀ rep reps, m.replacements = rep :: reps → isBlank rep = false)
    (hdict : ∀ kv ∈ cfg.custom_dictionary, isBlank kv.2 = false)
    (hcache : ∀ kv ∈ cache, isBlank kv.2.text = false)
    (h : process_page env cfg cache ocr layout page_hash llm_model =
      Except.ok (r, cache1, log)) :
    isBlank r.final_text = false ∧ r.final_text ≠ "" := by
  suffices hb : isBlank r.final_text = false from
    ⟨hb, ne_empty_of_not_blank _ hb⟩
  simp only [process_page] at h
  cases hsc : SpellChecker.correct env cfg.spell_check ocr.text with
  | error e => rw [hsc] at h; cases h
  | ok spell_result =>
    rw [hsc] at h
    simp only at h
    have hcor : isBlank spell_result.corrected_text = false :=
      spellCorrect_ok_not_blank env cfg.spell_check ocr.text spell_result
        hpyvi htext hrep hsc
    have hmapped : isBlank (apply_internal_dictionary
        spell_result.corrected_text cfg.custom_dictionary) = false :=
      apply_internal_dictionary_not_blank cfg.custom_dictionary
        spell_result.corrected_text hdict hcor
    by_cases hrun : shouldRunLLM cfg.enable_llm cfg.confidence_threshold
        ocr.confidence layout
    · rw [if_pos hrun] at h
      rcases hE : enrich env.sha256hex (resolveProviders env cfg.llm)
          cfg.llm.cache_enabled cache
          (apply_internal_dictionary spell_result.corrected_text
            cfg.custom_dictionary)
          layout llm_model page_hash with ⟨res, c2, lg⟩
      rw [hE] at h
      cases res with
      | error e => simp at h
      | ok respOpt =>
        simp only at h
        injection h with h'
        have hr : _ = r := congrArg Prod.fst h'
        rw [← hr]
        cases respOpt with
        | none => simpa [PostProcessingResult.final_text] using hmapped
        | some resp =>
          have hne : isBlank resp.text = false := by
            apply enrich_ok_not_blank env.sha256hex
              (resolveProviders env cfg.llm) cfg.llm.cache_enabled cache
              (apply_internal_dictionary spell_result.corrected_text
                cfg.custom_dictionary) layout llm_model page_hash resp hcache
            rw [hE]
          have hresp_ne : resp.text ≠ "" := ne_empty_of_not_blank _ hne
          simpa [PostProcessingResult.final_text, pyOrStr, hresp_ne]
            using hne
    · rw [if_neg hrun] at h
      injection h with h'
      have hr : _ = r := congrArg Prod.fst h'
      rw [← hr]
      simpa [PostProcessingResult.final_text] using hmapped

/-- C6 witness: `"van ban"` through the no-tool configuration with the
always-ok provider — `final_text` is the enrichment text, non-empty. -/
theorem process_page_final_text_nonempty_witness :
    isBlank (PostProcessingResult.final_text
      { original_text := "van ban", spell_checked_text := "van ban",
        llm_text := Option.some "ok", corrections := [],
        provider := Option.some "prov" }) = false ∧
    PostProcessingResult.final_text
      { original_text := "van ban", spell_checked_text := "van ban",
        llm_text := Option.some "ok", corrections := [],
        provider := Option.some "prov" } ≠ "" := by
  have h := process_page_final_text_nonempty envDefault cfgEnrich []
    { text := "van ban" }
    Option.none (Option.some "job:1") Option.none
    { original_text := "van ban", spell_checked_text := "van ban",
      llm_text := Option.some "ok", corrections := [],
      provider := Option.some "prov" }
    (enrich envDefault.sha256hex [provOk] true []
      (apply_internal_dictionary "van ban" [])
      Option.none Option.none (Option.some "job:1")).2.1
    ["prov"] rfl rfl
    (by intro tok m ms hchk; rw [show envDefault.langToolCheck tok = [] from rfl] at hchk; cases hchk)
    (by intro kv hkv; cases hkv)
    (by intro kv hkv; cases hkv)
    rfl
  exact h

theorem b64Index_b64Char_fin : ∀ i : Fin 64, b64Index (b64Char i.1) = Option.some i.1 := by
  decide

theorem isB64Char_b64Char_fin : ∀ i : Fin 64, isB64Char (b64Char i.1) = true := by
  decide

theorem b64Char_ne_pad_fin : ∀ i : Fin 64, (b64Char i.1 != '=') = true := by
  decide

theorem b64Char_ascii_fin : ∀ i : Fin 64, decide ((b64Char i.1).toNat < 128) = true := by
  decide

theorem b64Index_b64Char {i : Nat} (h : i < 64) :
    b64Index (b64Char i) = Option.some i :=
  b64Index_b64Char_fin ⟨i, h⟩

theorem chunk3_induction (P : List Nat → Prop) (h0 : P []) (h1 : ∀ b, P [b])
    (h2 : ∀ b c, P [b, c])
    (h3 : ∀ b c d rest, P rest → P (b :: c :: d :: rest)) :
    ∀ l : List Nat, P l
  | [] => h0
  | [b] => h1 b
  | [b, c] => h2 b c
  | b :: c :: d :: rest =>
      h3 b c d rest (chunk3_induction P h0 h1 h2 h3 rest)

theorem b64Sextets_all_lt :
    ∀ bs : List Nat, (∀ b ∈ bs, b < 256) → ∀ s ∈ b64Sextets bs, s < 64 := by
  refine chunk3_induction _ ?_ ?_ ?_ ?_
  · intro _ s hs; cases hs
  · intro b h s hs
    have hb : b < 256 := h b (by simp)
    simp only [b64Sextets] at hs
    rcases List.mem_cons.mp hs with h1 | h2
    · omega
    · rcases List.mem_cons.mp h2 with h3 | h4
      · omega
      · cases h4
  · intro b c h s hs
    have hb : b < 256 := h b (by simp)
    have hc : c < 256 := h c (by simp)
    simp only [b64Sextets] at hs
    rcases List.mem_cons.mp hs with h1 | h2
    · omega
    · rcases List.mem_cons.mp h2 with h3 | h4
      · omega
      · rcases List.mem_cons.mp h4 with h5 | h6
        · omega
        · cases h6
  · intro b c d rest ih h s hs
    have hb : b < 256 := h b (by simp)
    have hc : c < 256 := h c (by simp)
    have hd : d < 256 := h d (by simp)
    simp only [b64Sextets] at hs
    rcases List.mem_cons.mp hs with h1 | h2
    · omega
    · rcases List.mem_cons.mp h2 with h3 | h4
      · omega
      · rcases List.mem_cons.mp h4 with h5 | h6
        · omega
        · rcases List.mem_cons.mp h6 with h7 | h8
          · omega
          · exact ih (fun x hx => h x (by simp [hx])) s h8

theorem b64DecodeSextets_b64Sextets :
    ∀ bs : List Nat, (∀ b ∈ bs, b < 256) →
      b64DecodeSextets (b64Sextets bs) = bs := by
  refine chunk3_induction _ ?_ ?_ ?_ ?_
  · intro _; rfl
  · intro b h
    have hb : b < 256 := h b (by simp)
    simp only [b64Sextets, b64DecodeSextets, List.cons.injEq, and_true]
    omega
  · intro b c h
    have hb : b < 256 := h b (by simp)
    have hc : c < 256 := h c (by simp)
    simp only [b64Sextets, b64DecodeSextets, List.cons.injEq, and_true]
    constructor
    · omega
    · omega
  · intro b c d rest ih h
    have hb : b < 256 := h b (by simp)
    have hc : c < 256 := h c (by simp)
    have hd : d < 256 := h d (by simp)
    simp only [b64Sextets, b64DecodeSextets]
    rw [ih (fun x hx => h x (by simp [hx]))]
    simp only [List.cons.injEq]
    exact ⟨by omega, by omega, by omega, trivial⟩

theorem filterMap_b64Index_map :
    ∀ l : List Nat, (∀ s ∈ l, s < 64) →
      (l.map b64Char).filterMap b64Index = l := by
  intro l
  induction l with
  | nil => intro _; rfl
  | cons s rest ih =>
    intro h
    have hs : s < 64 := h s (by simp)
    simp [List.filterMap_cons, b64Index_b64Char hs,
      ih (fun x hx => h x (by simp [hx]))]

theorem takeWhile_append_pad (l : List Char) (n : Nat)
    (h : ∀ c ∈ l, (c != '=') = true) :
    (l ++ List.replicate n '=').takeWhile (fun c => c != '=') = l := by
  induction l with
  | nil =>
    cases n with
    | zero => rfl
    | succ m => simp [List.replicate_succ, List.takeWhile_cons]
  | cons c cs ih =>
    have hc := h c (by simp)
    simp [List.takeWhile_cons, hc, ih (fun d hd => h d (by simp [hd]))]

theorem b64_len_pad :
    ∀ bs : List Nat,
      ((b64Sextets bs).length % 4 = 0 ∧ b64PadCount bs.length = 0) ∨
      ((b64Sextets bs).length % 4 = 2 ∧ b64PadCount bs.length = 2) ∨
      ((b64Sextets bs).length % 4 = 3 ∧ b64PadCount bs.length = 1) := by
  refine chunk3_induction _ ?_ ?_ ?_ ?_
  · left; exact ⟨rfl, rfl⟩
  · intro b; right; left; exact ⟨rfl, rfl⟩
  · intro b c; right; right; exact ⟨rfl, rfl⟩
  · intro b c d rest ih
    have hlen : (b64Sextets (b :: c :: d :: rest)).length % 4 =
        (b64Sextets rest).length % 4 := by
      simp only [b64Sextets, List.length_cons]
      omega
    have hpad : b64PadCount (b :: c :: d :: rest).length =
        b64PadCount rest.length := by
      simp only [List.length_cons]
      have h3 : (rest.length + 1 + 1 + 1) % 3 = rest.length % 3 := by omega
      unfold b64PadCount
      rw [h3]
    rcases ih with ⟨ha, hb2⟩ | ⟨ha, hb2⟩ | ⟨ha, hb2⟩
    · left; exact ⟨hlen.trans ha, hpad.trans hb2⟩
    · right; left; exact ⟨hlen.trans ha, hpad.trans hb2⟩
    · right; right; exact ⟨hlen.trans ha, hpad.trans hb2⟩

/-- Round trip: decoding the canonical base64 encoding of any byte list
recovers exactly those bytes. -/
theorem pyB64Decode_pyB64Encode (bs : List Nat) (hb : ∀ b ∈ bs, b < 256) :
    pyB64Decode (pyB64Encode bs) = Except.ok bs := by
  have hsex : ∀ s ∈ b64Sextets bs, s < 64 := b64Sextets_all_lt bs hb
  have hdata : (pyB64Encode bs).data =
      (b64Sextets bs).map b64Char ++
        List.replicate (b64PadCount bs.length) '=' := rfl
  simp only [pyB64Decode, hdata]
  have hascii : ((b64Sextets bs).map b64Char ++
      List.replicate (b64PadCount bs.length) '=').all
        (fun c => decide (c.toNat < 128)) = true := by
    apply List.all_eq_true.mpr
    intro c hc
    rcases List.mem_append.mp hc with h | h
    · obtain ⟨s, hs, rfl⟩ := List.mem_map.mp h
      exact b64Char_ascii_fin ⟨s, hsex s hs⟩
    · rw [List.eq_of_mem_replicate h]
      decide
  rw [if_neg (by simp [hascii])]
  have hfilter : ((b64Sextets bs).map b64Char ++
      List.replicate (b64PadCount bs.length) '=').filter
        (fun c => isB64Char c || c == '=') =
      (b64Sextets bs).map b64Char ++
        List.replicate (b64PadCount bs.length) '=' := by
    apply List.filter_eq_self.mpr
    intro a ha
    rcases List.mem_append.mp ha with h | h
    · obtain ⟨s, hs, rfl⟩ := List.mem_map.mp h
      simp [isB64Char_b64Char_fin ⟨s, hsex s hs⟩]
    · rw [List.eq_of_mem_replicate h]
      decide
  rw [hfilter]
  have htake := takeWhile_append_pad ((b64Sextets bs).map b64Char)
      (b64PadCount bs.length)
      (by intro c hc
          obtain ⟨s, hs, rfl⟩ := List.mem_map.mp hc
          exact b64Char_ne_pad_fin ⟨s, hsex s hs⟩)
  rw [htake]
  have hK : ((b64Sextets bs).map b64Char ++
      List.replicate (b64PadCount bs.length) '=').length =
      (b64Sextets bs).length + b64PadCount bs.length := by
    simp
  rw [List.length_map, hK]
  rcases b64_len_pad bs with ⟨h1, h2⟩ | ⟨h1, h2⟩ | ⟨h1, h2⟩ <;>
    simp [h1, h2, filterMap_b64Index_map _ hsex,
      b64DecodeSextets_b64Sextets bs hb]

/-- C8 counterexample: two concrete inputs refute the claim.  `"văn"` fails
base64 decoding, yet `decode` does not return its UTF-8 bytes —
`base64.b64decode` raises a plain `ValueError` for non-ASCII input and
`except binascii.Error` does not catch it.  And the mapping
`{"content": "x", "encoding": 5}` — whose non-string encoding makes it
an unrecognized shape, which per the claim should yield null — instead
raises `AttributeError` at `encoding.lower()`. -/
theorem decode_artifact_raises_counterexample :
    (decode_artifact (ArtifactVal.str "văn") =
      Except.error
        (PyExc.valueError "string argument should contain only ASCII characters") ∧
     decode_artifact (ArtifactVal.str "văn") ≠
      Except.ok (Option.some (utf8Bytes "văn"))) ∧
    (decode_artifact (.dict (.str "x") (Option.some (.int 5))) =
      Except.error (PyExc.attributeError "int object has no attribute lower") ∧
     decode_artifact (.dict (.str "x") (Option.some (.int 5))) ≠
      Except.ok Option.none) := by
  refine ⟨⟨rfl, ?_⟩, rfl, ?_⟩
  · intro h
    rw [show decode_artifact (ArtifactVal.str "văn") =
        Except.error
          (PyExc.valueError "string argument should contain only ASCII characters")
      from rfl] at h
    simp at h
  · intro h
    rw [show decode_artifact (.dict (.str "x") (Option.some (.int 5))) =
        Except.error (PyExc.attributeError "int object has no attribute lower")
      from rfl] at h
    simp at h

/-- C8 (amended): the decoder contract — bytes pass through; the base64
encoding of any byte list round-trips; an *ASCII* string whose base64
decoding fails with `binascii.Error` falls back to its UTF-8 bytes, while a
non-ASCII string raises `ValueError`; a `{content, encoding}` mapping
with `str` content follows the same rules for a string encoding (`base64` by
default, `utf-8`/`text` as literal bytes, any other string yielding `None`),
raises `AttributeError` for an encoding value without a `lower` method
(`None`, `int`, `dict`, arbitrary objects), and yields `None` for a `bytes`
encoding; every other shape — non-`str`/`bytes` mapping content included —
yields `None`. -/
theorem decode_artifact_contract :
    (∀ bs : List Nat,
       decode_artifact (.bytes bs) = Except.ok (Option.some bs)) ∧
    (∀ bs : List Nat, (∀ b ∈ bs, b < 256) →
       decode_artifact (.str (pyB64Encode bs)) = Except.ok (Option.some bs)) ∧
    (∀ (s : String) (msg : String),
       pyB64Decode s = Except.error (PyExc.binasciiError msg) →
       decode_artifact (.str s) = Except.ok (Option.some (utf8Bytes s))) ∧
    decode_artifact (.str "not-base64!!") =
      Except.ok (Option.some (utf8Bytes "not-base64!!")) ∧
    (∀ (bs : List Nat) (enc : Option ArtifactVal),
       decode_artifact (.dict (.bytes bs) enc) = Except.ok (Option.some bs)) ∧
    (∀ bs : List Nat, (∀ b ∈ bs, b < 256) →
       decode_artifact (.dict (.str (pyB64Encode bs)) Option.none) =
         Except.ok (Option.some bs)) ∧
    decode_artifact (.dict (.str "aGk=") (Option.some (.str "base64"))) =
      Except.ok (Option.some [104, 105]) ∧
    (∀ c : String,
       decode_artifact (.dict (.str c) (Option.some (.str "utf-8"))) =
         Except.ok (Option.some (utf8Bytes c))) ∧
    (∀ c : String,
       decode_artifact (.dict (.str c) (Option.some (.str "text"))) =
         Except.ok (Option.some (utf8Bytes c))) ∧
    decode_artifact (.dict (.str "x") (Option.some (.str "latin-1"))) =
      Except.ok Option.none ∧
    (∀ (c : String) (bs2 : List Nat),
       decode_artifact (.dict (.str c) (Option.some (.bytes bs2))) =
         Except.ok Option.none) ∧
    (∀ (c : String) (n : Int),
       decode_artifact (.dict (.str c) (Option.some (.int n))) =
         Except.error
           (PyExc.attributeError "int object has no attribute lower")) ∧
    (∀ c : String,
       decode_artifact (.dict (.str c) (Option.some .pynone)) =
         Except.error
           (PyExc.attributeError "NoneType object has no attribute lower")) ∧
    decode_artifact .pynone = Except.ok Option.none ∧
    decode_artifact .other = Except.ok Option.none ∧
    (∀ n : Int, decode_artifact (.int n) = Except.ok Option.none) ∧
    (∀ (xs : ArtifactVal) (ys : Option ArtifactVal) (enc : Option ArtifactVal),
       decode_artifact (.dict (.dict xs ys) enc) = Except.ok Option.none) := by
  refine ⟨fun bs => rfl, ?_, ?_, rfl, fun bs enc => rfl, ?_, rfl,
    fun c => rfl, fun c => rfl, rfl, fun c bs2 => rfl, fun c n => rfl,
    fun c => rfl, rfl, rfl, fun n => rfl, fun xs ys enc => rfl⟩
  · intro bs hbs
    simp only [decode_artifact, pyB64Decode_pyB64Encode bs hbs]
  · intro s msg h
    simp only [decode_artifact, h]
  · intro bs hbs
    simp only [decode_artifact, Option.getD_none,
      pyB64Decode_pyB64Encode bs hbs]
    rfl

/-- C8 witness: the contract evaluated on `b"hello"`, `"not-base64!!"` and a
mapping with default encoding. -/
theorem decode_artifact_contract_witness :
    decode_artifact (.str (pyB64Encode [104, 101, 108, 108, 111])) =
      Except.ok (Option.some [104, 101, 108, 108, 111]) ∧
    decode_artifact (.str "not-base64!!") =
      Except.ok (Option.some (utf8Bytes "not-base64!!")) ∧
    decode_artifact (.dict (.str (pyB64Encode [104, 105])) Option.none) =
      Except.ok (Option.some [104, 105]) := by
  obtain ⟨-, h2, h3, -, -, h6, -⟩ := decode_artifact_contract
  exact ⟨h2 [104, 101, 108, 108, 111] (by decide),
         h3 "not-base64!!" "Invalid base64-encoded string" rfl,
         h6 [104, 105] (by decide)⟩

/-- C1 (code bug): with enrichment configured (a postprocessor present), the
per-page loop of `OCRPipeline.run` can never record a `page_details` entry:
when `process_page` succeeds, the loop's read of `post_result.attempts` — an
attribute the `slots=True` dataclass does not declare — raises
`AttributeError` before the entry is assembled; when `process_page` raises,
the loop re-raises `LLMProcessingError` instead.  The second conjunct
evaluates the step at a concrete enrichment-success page and exhibits the
`AttributeError`. -/
theorem runPageStep_never_yields_page_details :
    (∀ (env : PyEnv) (cfg : PostProcessingConfig)
       (cache : List (String × LLMResponse)) (job_id : String) (index : Nat)
       (result : OCRResult) (llm_model : Option String)
       (d : PageDetail) (c : List (String × LLMResponse)),
       runPageStep env cfg cache job_id index result llm_model ≠
         Except.ok (d, c)) ∧
    runPageStep envDefault cfgEnrich [] "job" 1 { text := "van ban" }
        Option.none =
      Except.error
        (PipelineErr.py
          (PyExc.attributeError
            "PostProcessingResult object has no attribute attempts")) := by
  constructor
  · intro env cfg cache job_id index result llm_model d c h
    simp only [runPageStep] at h
    cases hpp : process_page env cfg cache result (Option.some (.dict []))
        (Option.some (job_id ++ ":" ++ toString index)) llm_model with
    | error e => rw [hpp] at h; cases h
    | ok trip =>
      obtain ⟨post_result, cache2, lg⟩ := trip
      rw [hpp] at h
      simp only at h
      have hattr : pprGetattr post_result "attempts" =
          Except.error
            (PyExc.attributeError
              "PostProcessingResult object has no attribute attempts") := rfl
      rw [hattr] at h
      cases h
  · rfl

/-- C2: once `process_pdf` finds the job (well-formed id, existing record),
the record always ends in exactly one terminal state — `COMPLETED` exactly
when the coordinator returned a result, `FAILED` on every caught exception —
and is never left in `PROCESSING`. -/
theorem process_pdf_terminal_state :
    ∀ (job : JobRec) (outcome : RunOutcome),
      ∃ job1, process_pdf (Option.some job) outcome = Option.some job1 ∧
        (job1.status = JobStatus.completed ∨ job1.status = JobStatus.failed) ∧
        job1.status ≠ JobStatus.processing ∧
        ((∃ path meta, outcome = RunOutcome.success path meta) ↔
          job1.status = JobStatus.completed) := by
  intro job outcome
  cases outcome <;> simp [process_pdf]

/-- C10: the `average_confidence` the pipeline stores is total-sum over
`max(len, 1)`: zero pages give `0.0` without a division-by-zero, a `None`
confidence enters the sum as `0.0`, and for at least one page the divisor is
exactly the page count. -/
theorem averageConfidence_spec :
    averageConfidence [] = 0 ∧
    (∀ results : List OCRResult,
       averageConfidence results =
         averageConfidence (results.map
           (fun r => { r with confidence := Option.some (r.confidence.getD 0) }))) ∧
    (∀ results : List OCRResult, results ≠ [] →
       averageConfidence results =
         (results.map (fun r => r.confidence.getD 0)).sum /
           (results.length : ℚ)) := by
  refine ⟨by simp [averageConfidence], ?_, ?_⟩
  · intro results
    simp only [averageConfidence, List.map_map, List.length_map]
    have hmap :
        List.map ((fun (r : OCRResult) => r.confidence.getD 0) ∘ fun r =>
          { text := r.text, confidence := Option.some (r.confidence.getD 0),
            boxes := r.boxes }) results =
        List.map (fun (r : OCRResult) => r.confidence.getD 0) results :=
      List.map_congr_left (fun r _ => by simp [Function.comp])
    rw [hmap]
  · intro results hne
    have hlen : 1 ≤ results.length := by
      cases results with
      | nil => exact absurd rfl hne
      | cons a l => simp
    simp [averageConfidence, Nat.max_eq_left hlen]

/-- C10 witness: two pages, confidences `0.5` and `None`, average `0.25`. -/
theorem averageConfidence_spec_witness :
    averageConfidence [ocrHalf, ocrNone] = 1 / 4 := by
  have h := averageConfidence_spec.2.2 [ocrHalf, ocrNone] (by simp)
  rw [h]
  norm_num [ocrHalf, ocrNone]

end PdfConvert
